import Mathlib

/-!
# Verification of the fpipeline variable-resolution and scoping subsystem

A shallow embedding of the core of the `fpipeline` Python library:

* `evalVars` embeds `eval_vars` (src/fpipeline/functions.py, lines 82-114),
* `runPipeline` embeds `pipeline` (functions.py, lines 157-177),
* `curryStep` embeds the step closure built by `curry` (functions.py, lines 144-153),
* `variableFind`, `variablesFind`, `attributeFind`, `attributesFind` embed the
  per-name `find` closures of `VariableContext.variable` / `.variables` /
  `.attribute` / `.attributes` (src/fpipeline/contexts.py),
* `closeCtx` embeds `VariableContext.close` (contexts.py, lines 283-293),
* `resourceInit` embeds `Resource.__init__` (src/fpipeline/variables.py, lines 182-200).

Python exceptions are modelled with `PyErr`; a computation that may raise
returns `Except PyErr _`.  The recursion of `eval_vars` is not structurally
bounded (a placeholder's stored value is arbitrary and may even refer back to
the placeholder), so `evalVars` carries an explicit fuel argument, decremented
on every recursive call; the result `ERes.out` means the computation was still
running when the fuel ran out, and divergence of the Python function on an
input is expressed as `evalVars ... = .out` for every fuel.
-/

/-- Python exceptions that the embedded code can raise. -/
inductive PyErr where
  | attributeError
  | keyError
  | typeError
  | valueError
deriving DecidableEq

/-- Python values as traversed by `eval_vars`: the container shapes the
resolver dispatches on, placeholders (`AbstractVariable` instances, identified
by a heap id whose stored value lives in a separate store), non-placeholder
callables (identified by an id mapped to the result of invoking them on the
ambient context), and opaque leaves.  `namedtuple` models the values whose
type has a `_make` attribute (tested before the plain-tuple case in the
source); the `Nat` field records the record type so rebuilding preserves it. -/
inductive Val where
  | none
  | int (n : Int)
  | str (s : String)
  | var (i : Nat)
  | callable (f : Nat)
  | list (xs : List Val)
  | namedtuple (t : Nat) (xs : List Val)
  | tuple (xs : List Val)
  | dict (kvs : List (String × Val))
  | set (xs : List Val)
  | frozenset (xs : List Val)

/-- Outcome of a fuelled evaluation: a value, a raised Python exception, or
fuel exhaustion (`out`, read: the Python computation has not yet returned). -/
inductive ERes (α : Type) where
  | ok (v : α)
  | exn (e : PyErr)
  | out

/-- Map over the value of a successful outcome. -/
def ERes.mapv {α β : Type} (f : α → β) : ERes α → ERes β
  | .ok v => .ok (f v)
  | .exn e => .exn e
  | .out => .out

/-- Evaluate `f` on every list element left to right, propagating the first
exception (as the Python comprehensions in `eval_vars` do). -/
def mapERes (f : Val → ERes Val) : List Val → ERes (List Val)
  | [] => .ok []
  | x :: xs =>
    match f x with
    | .ok v =>
      match mapERes f xs with
      | .ok vs => .ok (v :: vs)
      | .exn e => .exn e
      | .out => .out
    | .exn e => .exn e
    | .out => .out

/-- Evaluate `f` on every dict value (keys are never resolved), propagating
the first exception. -/
def mapEResKV (f : Val → ERes Val) : List (String × Val) → ERes (List (String × Val))
  | [] => .ok []
  | (k, x) :: kvs =>
    match f x with
    | .ok v =>
      match mapEResKV f kvs with
      | .ok vs => .ok ((k, v) :: vs)
      | .exn e => .exn e
      | .out => .out
    | .exn e => .exn e
    | .out => .out

/-- The store backing placeholders: reading placeholder `i`'s `.value` either
yields a value or raises (`attributeError` for an unset `Variable`,
`keyError` for an `Attribute` whose mapping target lacks the key, ...). -/
abbrev VStore := Nat → Except PyErr Val

/-- `eval_vars(ctx, val, depth)` from functions.py lines 82-114.  The `match`
cases appear in source order: the `AbstractVariable()` case is dispatched
first, the `depth == 0` guard second, then the structural cases, then plain
callables (invoked on the context, call-and-stop), then the identity default.
Since `ctx` is passed through every recursive call unchanged, invoking a
callable is modelled by the fixed map `calls` from callable id to the result
of calling it on the ambient context.  `fuel` bounds the number of recursive
calls and is a modelling artifact; `depth` is the Python `depth` parameter,
an integer that the source decrements without any lower bound. -/
def evalVars (σ : VStore) (calls : Nat → Val) : Nat → Val → Int → ERes Val
  | 0, _, _ => .out
  | fuel + 1, .var i, depth =>
    match σ i with
    | .ok v => evalVars σ calls fuel v (depth - 1)
    | .error e => .exn e
  | fuel + 1, v, depth =>
    if depth = 0 then .ok v
    else
      match v with
      | .list xs => (mapERes (fun x => evalVars σ calls fuel x (depth - 1)) xs).mapv .list
      | .namedtuple t xs =>
        (mapERes (fun x => evalVars σ calls fuel x (depth - 1)) xs).mapv (.namedtuple t)
      | .tuple xs => (mapERes (fun x => evalVars σ calls fuel x (depth - 1)) xs).mapv .tuple
      | .dict kvs => (mapEResKV (fun x => evalVars σ calls fuel x (depth - 1)) kvs).mapv .dict
      | .frozenset xs =>
        (mapERes (fun x => evalVars σ calls fuel x (depth - 1)) xs).mapv .frozenset
      | .set xs => (mapERes (fun x => evalVars σ calls fuel x (depth - 1)) xs).mapv .set
      | .callable f => .ok (calls f)
      | v => .ok v

/-- A callable-result map used in concrete instances: no callables occur, so
the map is irrelevant and set to the constant `Val.none`. -/
def noCalls : Nat → Val := fun _ => Val.none

/-! ## The pipeline composer (functions.py, lines 157-177)

Steps are unary functions of the context.  In Python all steps receive the
same mutable context object; here the context is threaded explicitly as a
state of type `α`, a step being `α → α × Val` (the updated state and the
step's return value). -/

/-- The `for fun in steps: result = fun(ctx)` loop of `run_pipeline`: each
step runs in order on the threaded context, and each return value overwrites
the previous one (`result` starts as `None`). -/
def pipelineLoop {α : Type} : List (α → α × Val) → α → Val → α × Val
  | [], ctx, result => (ctx, result)
  | f :: fs, ctx, _ =>
    let p := f ctx
    pipelineLoop fs p.1 p.2

/-- `pipeline(*steps)` applied to a context: run the loop, then pass the last
result through `eval_vars(ctx, result)` (at the default depth 10) before
returning it.  With zero steps the call is legal in the source
(`@wraps(steps[0] if steps else None)` copies nothing of interest from
`None` and raises nothing) and the loop leaves `result = None`. -/
def runPipeline {α : Type} (σ : VStore) (calls : Nat → Val) (fuel : Nat)
    (steps : List (α → α × Val)) (ctx : α) : α × ERes Val :=
  let p := pipelineLoop steps ctx .none
  (p.1, evalVars σ calls fuel p.2 10)

/-- State reached after running a list of steps in order on `ctx`. -/
def execSteps {α : Type} (steps : List (α → α × Val)) (ctx : α) : α :=
  steps.foldl (fun c f => (f c).1) ctx

/-! ## The currying layer (functions.py, lines 144-153)

`curry(step_fn, *args, **kwargs)` returns the closure `step(ctx)` modelled
here: each curried positional argument is resolved through
`eval_vars(ctx, a)` (default depth 10), keyword arguments are passed through
unresolved, the wrapped function runs on the context plus the resolved
arguments, and a return value that is still an `AbstractVariable` raises
`TypeError("Pipeline variable ... being returned.")`. -/

def curryStep {α : Type} (σ : VStore) (calls : Nat → Val) (fuel : Nat)
    (f : α → List Val → List (String × Val) → α × Val)
    (args : List Val) (kwargs : List (String × Val)) (ctx : α) : ERes (α × Val) :=
  match mapERes (fun a => evalVars σ calls fuel a 10) args with
  | .out => .out
  | .exn e => .exn e
  | .ok xargs =>
    let p := f ctx xargs kwargs
    match p.2 with
    | .var _ => .exn .typeError
    | v => .ok (p.1, v)

/-! ## Variable scopes (contexts.py)

A `VariableContext` owns a context target, an optional parent scope, a
registry `_variables : dict[str, AbstractVariable]`, and a `closed` flag.
Placeholder objects live on a heap (`List VarObj`, index = object identity);
scope targets are mapping objects drawn from a dict heap.  The data stored in
variables and mapping entries plays no role in the scoping claims and is
abstracted to `Nat` payloads. -/

/-- A placeholder object as `VariableContext` records it: a `Variable` (whose
`value` instance attribute may be unset) or an `Attribute` (whose `target`
attribute, once deleted by the `value` property deleter, is gone for good).
`Resource` objects never arise: their constructor always raises, see
`resourceInit` below. -/
inductive VarObj where
  | variable (name : String) (value : Option Nat)
  | attribute (name : String) (target : Option Nat)
deriving DecidableEq

/-- One scope of the chain: its context target (a dict-heap id), its registry
`_variables` as an insertion-ordered association list, and its `closed` flag. -/
structure Scope where
  target : Nat
  reg : List (String × Nat)
  closed : Bool
deriving DecidableEq

/-- `name in self._variables` / `self._variables[name]`. -/
def regFind (reg : List (String × Nat)) (name : String) : Option Nat :=
  match reg with
  | [] => Option.none
  | (k, v) :: rest => if k = name then some v else regFind rest name

/-- The per-name `find` closure of `VariableContext.variable` (contexts.py,
lines 78-88), run on the scope chain `scopes` (head = `self`, tail = the
ancestor chain).  On a local miss the source delegates with
`self.parent.variable(name, _cls=_cls)` — `create` is left at its default
`True`, whatever the original call passed — and only if the parent returned
nothing does the local `create` flag matter (`if not create: return None`,
else allocate a fresh `Variable(name)` and register it locally).  Returns the
found/created object id plus the updated heap and scope chain. -/
def variableFind (heap : List VarObj) : List Scope → String → Bool →
    Option Nat × List VarObj × List Scope
  | [], _, _ => (Option.none, heap, [])
  | s :: anc, name, create =>
    match regFind s.reg name with
    | some vid => (some vid, heap, s :: anc)
    | Option.none =>
      let r :=
        match anc with
        | [] => (Option.none, heap, anc)
        | _ :: _ => variableFind heap anc name true
      match r with
      | (some vid, heap1, anc1) => (some vid, heap1, s :: anc1)
      | (Option.none, heap1, anc1) =>
        if !create then (Option.none, heap1, s :: anc1)
        else
          let vid := heap1.length
          (some vid, heap1 ++ [.variable name Option.none],
            Scope.mk s.target (s.reg ++ [(name, vid)]) s.closed :: anc1)

/-- The per-name `find` closure of `VariableContext.variables` (contexts.py,
lines 125-135): identical to `variableFind` except that the parent lookup is
`self.parent.variable(name, create=False, _cls=_cls)`. -/
def variablesFind (heap : List VarObj) : List Scope → String → Bool →
    Option Nat × List VarObj × List Scope
  | [], _, _ => (Option.none, heap, [])
  | s :: anc, name, create =>
    match regFind s.reg name with
    | some vid => (some vid, heap, s :: anc)
    | Option.none =>
      let r :=
        match anc with
        | [] => (Option.none, heap, anc)
        | _ :: _ => variableFind heap anc name false
      match r with
      | (some vid, heap1, anc1) => (some vid, heap1, s :: anc1)
      | (Option.none, heap1, anc1) =>
        if !create then (Option.none, heap1, s :: anc1)
        else
          let vid := heap1.length
          (some vid, heap1 ++ [.variable name Option.none],
            Scope.mk s.target (s.reg ++ [(name, vid)]) s.closed :: anc1)

/-! Note: none of the four lookup methods reads the `closed` flag — the flag
is written by `close` and never consulted anywhere in contexts.py. -/

/-- The per-name `find` closure of `VariableContext.attribute` (contexts.py,
lines 192-202): parent lookup is `self.parent.variable(name, create=False)`;
a local creation allocates `Attribute(self.target, name)`. -/
def attributeFind (heap : List VarObj) : List Scope → String → Bool →
    Option Nat × List VarObj × List Scope
  | [], _, _ => (Option.none, heap, [])
  | s :: anc, name, create =>
    match regFind s.reg name with
    | some vid => (some vid, heap, s :: anc)
    | Option.none =>
      let r :=
        match anc with
        | [] => (Option.none, heap, anc)
        | _ :: _ => variableFind heap anc name false
      match r with
      | (some vid, heap1, anc1) => (some vid, heap1, s :: anc1)
      | (Option.none, heap1, anc1) =>
        if !create then (Option.none, heap1, s :: anc1)
        else
          let vid := heap1.length
          (some vid, heap1 ++ [.attribute name (some s.target)],
            Scope.mk s.target (s.reg ++ [(name, vid)]) s.closed :: anc1)

/-- The per-name `find` closure of `VariableContext.attributes` (contexts.py,
lines 251-261): parent lookup is `self.parent.variable(name, create=False)`,
and a local creation allocates `Variable(name)` — a plain `Variable`, not an
`Attribute` bound to the scope's target. -/
def attributesFind (heap : List VarObj) : List Scope → String → Bool →
    Option Nat × List VarObj × List Scope
  | [], _, _ => (Option.none, heap, [])
  | s :: anc, name, create =>
    match regFind s.reg name with
    | some vid => (some vid, heap, s :: anc)
    | Option.none =>
      let r :=
        match anc with
        | [] => (Option.none, heap, anc)
        | _ :: _ => variableFind heap anc name false
      match r with
      | (some vid, heap1, anc1) => (some vid, heap1, s :: anc1)
      | (Option.none, heap1, anc1) =>
        if !create then (Option.none, heap1, s :: anc1)
        else
          let vid := heap1.length
          (some vid, heap1 ++ [.variable name Option.none],
            Scope.mk s.target (s.reg ++ [(name, vid)]) s.closed :: anc1)

/-! ## Closing a scope (contexts.py, lines 283-293) -/

/-- The whole state a `VariableContext` chain acts on: the mapping objects
usable as targets (`dicts`, each an association list with `Nat` payloads),
the placeholder heap, and the scope chain (head = the scope operated on). -/
structure CtxSt where
  dicts : List (List (String × Nat))
  heap : List VarObj
  scopes : List Scope
deriving DecidableEq

/-- The `value` property getter of a placeholder.  A `Variable` with no
`value` instance attribute raises `AttributeError`; an `Attribute` whose
`target` attribute was deleted raises `AttributeError` (from `self.target`),
and otherwise proxies to `self.target[self.name]`, which on a mapping target
raises `KeyError` when the key is absent (variables.py, lines 120-123). -/
def varObjGet (dicts : List (List (String × Nat))) : VarObj → Except PyErr Nat
  | .variable _ Option.none => .error .attributeError
  | .variable _ (some v) => .ok v
  | .attribute _ Option.none => .error .attributeError
  | .attribute n (some t) =>
    match regFind (dicts.getD t []) n with
    | some v => .ok v
    | Option.none => .error .keyError

/-- Python's `hasattr(var, 'value')`: call the getter, return `False` on
`AttributeError`, `True` on success — any other exception (here `KeyError`)
propagates. -/
def hasattrValue (dicts : List (List (String × Nat))) (v : VarObj) : Except PyErr Bool :=
  match varObjGet dicts v with
  | .ok _ => .ok true
  | .error .attributeError => .ok false
  | .error e => .error e

/-- `delattr(var, 'value')`: on a `Variable` it removes the `value` instance
attribute; on an `Attribute` it triggers the property deleter, which runs
`delattr(self, 'target')` (variables.py, lines 135-138). -/
def delValue : VarObj → VarObj
  | .variable n _ => .variable n Option.none
  | .attribute n _ => .attribute n Option.none

/-- The `for (_, var) in self._variables.items()` loop of
`VariableContext.close`: for each registered placeholder, if
`hasattr(var, 'value')` then delete its value (no registered placeholder is a
`Resource`, since `Resource.__init__` always raises — see `resourceInit`).
An exception from `hasattr` aborts the loop and propagates, leaving the heap
as mutated so far.  Registry ids always index into the heap in reachable
states; `getD` totalizes the Python `heap[vid]`. -/
def closeLoop (dicts : List (List (String × Nat))) (heap : List VarObj) :
    List (String × Nat) → Option PyErr × List VarObj
  | [] => (Option.none, heap)
  | (_, vid) :: rest =>
    let var := heap.getD vid (.variable "" Option.none)
    match hasattrValue dicts var with
    | .error e => (some e, heap)
    | .ok false => closeLoop dicts heap rest
    | .ok true => closeLoop dicts (heap.set vid (delValue var)) rest

/-- `VariableContext.close` on the head scope: run the detach loop over the
registry, then `self._variables.clear()` and `self.closed = True`.  If the
loop raises, the exception propagates before the registry is cleared or the
flag is set. -/
def closeCtx (st : CtxSt) : Option PyErr × CtxSt :=
  match st.scopes with
  | [] => (Option.none, st)
  | s :: anc =>
    match closeLoop st.dicts st.heap s.reg with
    | (some e, heap2) => (some e, CtxSt.mk st.dicts heap2 (s :: anc))
    | (Option.none, heap2) =>
      (Option.none, CtxSt.mk st.dicts heap2 (Scope.mk s.target [] true :: anc))

/-! ## Resource variables (variables.py, lines 166-213)

`Resource[C,V]` subclasses `AbstractVariable[C,V]` directly.  Its
`__init__(self, name, resource)` matches the resource against the
`Closeable` protocol (wrapping it in `contextlib.closing` and entering it)
or `AbstractContextManager` (entering it), raising `ValueError` otherwise —
and then calls `super().__init__(name, value)`.  Neither `AbstractVariable`
nor `typing.Generic` defines `__init__`, so this dispatches to
`object.__init__` with two extra positional arguments, which raises
`TypeError` because `Resource` overrides `__init__` (CPython `object_init`).
The constructor therefore never completes, whatever the resource. -/

/-- What the resource argument of `Resource.__init__` matches:
an object with a `close` method (the `Closeable` protocol), a context
manager, or anything else. -/
inductive ResKind where
  | closeable
  | contextManager
  | other
deriving DecidableEq

/-- `object.__init__` called with `extraArgs` positional arguments beyond
`self`, from a class that overrides `__init__`: raises `TypeError` unless
there are no extra arguments. -/
def objectInit (extraArgs : Nat) : Except PyErr Unit :=
  if extraArgs = 0 then .ok () else .error .typeError

/-- `Resource.__init__(name, resource)`: the `match resource` statement
(raising `ValueError` on an unsupported resource, otherwise storing the
wrapped resource and acquiring `value = self.resource.__enter__()`), followed
by `super().__init__(name, value)` = `object.__init__(self, name, value)`,
two extra arguments. -/
def resourceInit (k : ResKind) : Except PyErr Unit :=
  match k with
  | .other => .error .valueError
  | _ => objectInit 2

/-! ## Concrete instances used in the theorems below -/

/-- A store describing a chain of twelve placeholders: variable `i`'s value
is variable `i + 1` for `i < 11`, and variable `11` holds `42`. -/
def chainStore : VStore := fun i =>
  if i < 11 then .ok (.var (i + 1)) else .ok (.int 42)

/-- `nestList n v` is `v` wrapped in `n` singleton lists. -/
def nestList : Nat → Val → Val
  | 0, v => v
  | n + 1, v => .list [nestList n v]

/-- A store in which every placeholder holds the plain value `7`. -/
def store7 : VStore := fun _ => .ok (.int 7)

/-- The cyclic store: every variable's value is the variable itself
(`x.value is x`), the simplest placeholder cycle. -/
def selfStore : VStore := fun i => .ok (.var i)

/-- A step function whose underlying Python function returns a raw
placeholder (variable 0) whatever its arguments. -/
def retVar0 : Unit → List Val → List (String × Val) → Unit × Val :=
  fun _ _ _ => ((), .var 0)

/-- A pipeline step that appends its index to a trace context and returns
the index, used to observe execution order. -/
def traceStep (i : Nat) : List Nat → List Nat × Val :=
  fun t => (t ++ [i], .int i)

/-- Values free of placeholders and callables: plain leaves and the
supported container shapes (sequence, record/named-tuple, tuple, mapping,
set, immutable set) over such values. -/
inductive PlainData : Val → Prop where
  | none : PlainData .none
  | int (n : Int) : PlainData (.int n)
  | str (s : String) : PlainData (.str s)
  | list (xs : List Val) (h : ∀ x ∈ xs, PlainData x) : PlainData (.list xs)
  | namedtuple (t : Nat) (xs : List Val) (h : ∀ x ∈ xs, PlainData x) :
      PlainData (.namedtuple t xs)
  | tuple (xs : List Val) (h : ∀ x ∈ xs, PlainData x) : PlainData (.tuple xs)
  | dict (kvs : List (String × Val)) (h : ∀ kv ∈ kvs, PlainData kv.2) : PlainData (.dict kvs)
  | set (xs : List Val) (h : ∀ x ∈ xs, PlainData x) : PlainData (.set xs)
  | frozenset (xs : List Val) (h : ∀ x ∈ xs, PlainData x) : PlainData (.frozenset xs)

/-- A concrete placeholder-free value mixing several container shapes. -/
def plainSample : Val :=
  .list [.int 1, .tuple [.none], .set [.int 2], .namedtuple 0 [.int 3]]

/-! ## Helper lemmas -/

theorem mapERes_id (g : Val → ERes Val) (xs : List Val) (h : ∀ x ∈ xs, g x = .ok x) :
    mapERes g xs = .ok xs := by
  induction xs with
  | nil => rfl
  | cons x xs ih =>
    simp only [mapERes]
    rw [h x (List.mem_cons_self x xs), ih (fun y hy => h y (List.mem_cons_of_mem x hy))]

theorem mapEResKV_id (g : Val → ERes Val) (kvs : List (String × Val))
    (h : ∀ kv ∈ kvs, g kv.2 = .ok kv.2) : mapEResKV g kvs = .ok kvs := by
  induction kvs with
  | nil => rfl
  | cons kv kvs ih =>
    obtain ⟨k, x⟩ := kv
    simp only [mapEResKV]
    rw [h (k, x) (List.mem_cons_self _ kvs), ih (fun y hy => h y (List.mem_cons_of_mem _ hy))]

theorem fuel_succ_of_size_le (v : Val) (fuel : Nat) (hf : sizeOf v ≤ fuel) :
    ∃ f, fuel = f + 1 := by
  cases fuel with
  | zero => cases v <;> simp at hf
  | succ f => exact ⟨f, rfl⟩

theorem pipelineLoop_append_last {α : Type} (ss : List (α → α × Val)) (f : α → α × Val) :
    ∀ (ctx : α) (r : Val), pipelineLoop (ss ++ [f]) ctx r = f (execSteps ss ctx) := by
  induction ss with
  | nil => intro ctx r; simp [pipelineLoop, execSteps]
  | cons g ss ih =>
    intro ctx r
    exact ih (g ctx).1 (g ctx).2

/-- `PlainData` holds of the concrete sample. -/
theorem plainSample_plain : PlainData plainSample := by
  refine .list _ ?_
  intro x hx
  simp only [plainSample, List.mem_cons, List.not_mem_nil, or_false] at hx
  rcases hx with rfl | rfl | rfl | rfl
  · exact .int 1
  · refine .tuple _ ?_
    intro y hy
    simp only [List.mem_cons, List.not_mem_nil, or_false] at hy
    subst hy
    exact .none
  · refine .set _ ?_
    intro y hy
    simp only [List.mem_cons, List.not_mem_nil, or_false] at hy
    subst hy
    exact .int 2
  · refine .namedtuple _ _ ?_
    intro y hy
    simp only [List.mem_cons, List.not_mem_nil, or_false] at hy
    subst hy
    exact .int 3

/-! ## Claims -/

/-- C1 (counterexample): with the default bound 10, a chain of placeholders
reaching past the bound is fully substituted rather than returned as the
placeholder object reached at the cutoff.  Descending `chainStore` from
variable 0, `depth` reaches 0 exactly at variable 10, yet the result is the
fully resolved `42` — not the unresolved placeholder (variable 10, holding
variable 11, which sits deeper than the bound) that the claim predicts. -/
theorem c1_counterexample_chain_resolved_past_depth :
    evalVars chainStore noCalls 20 (.var 0) 10 = .ok (.int 42)
    ∧ evalVars chainStore noCalls 20 (.var 0) 10 ≠ .ok (.var 10) := by
  refine ⟨rfl, ?_⟩
  intro h
  rw [show evalVars chainStore noCalls 20 (.var 0) 10 = .ok (.int 42) from rfl] at h
  injection h with h2
  exact Val.noConfusion h2

/-- C1 (amended): `eval_vars` decrements `depth` on each recursive call, but
the `depth == 0` test fires only on non-placeholder values: (1) any
non-placeholder reached at depth 0 is returned as-is, with any placeholders
inside it unsubstituted; (2) a placeholder is substituted before the depth
test, at any depth, recursing into its value with `depth - 1`; (3) hence a
structure of nested containers deeper than the default bound 10 keeps its
placeholders beyond the cutoff (`nestList 11` is returned unchanged), while
(4) the same placeholder under only 10 container levels is substituted. -/
theorem c1_amended_depth_stops_containers_not_placeholders :
    (∀ (σ : VStore) (calls : Nat → Val) (v : Val) (fuel : Nat),
       (∀ i, v ≠ .var i) → evalVars σ calls (fuel + 1) v 0 = .ok v)
    ∧ (∀ (σ : VStore) (calls : Nat → Val) (fuel i : Nat) (v : Val) (depth : Int),
       σ i = .ok v →
       evalVars σ calls (fuel + 1) (.var i) depth = evalVars σ calls fuel v (depth - 1))
    ∧ evalVars store7 noCalls 40 (nestList 11 (.var 0)) 10 = .ok (nestList 11 (.var 0))
    ∧ evalVars store7 noCalls 40 (nestList 10 (.var 0)) 10 = .ok (nestList 10 (.int 7)) := by
  refine ⟨?_, ?_, rfl, rfl⟩
  · intro σ calls v fuel hv
    cases v with
    | var i => exact absurd rfl (hv i)
    | _ => rfl
  · intro σ calls fuel i v depth hσ
    simp [evalVars, hσ]

/-- C1 (witness): the amended theorem instantiated at plain `5` (a
non-placeholder returned as-is at depth 0) and at variable 0 of `store7`
(substituted at depth 0, recursing with depth `-1`). -/
theorem c1_amended_witness :
    evalVars store7 noCalls 4 (.int 5) 0 = .ok (.int 5)
    ∧ evalVars store7 noCalls 4 (.var 0) 0 = evalVars store7 noCalls 3 (.int 7) (0 - 1) :=
  ⟨c1_amended_depth_stops_containers_not_placeholders.1 store7 noCalls (.int 5) 3
     (fun _ h => Val.noConfusion h),
   c1_amended_depth_stops_containers_not_placeholders.2.1 store7 noCalls 3 0 (.int 7) 0 rfl⟩

/-- C9: the placeholder case of `eval_vars` is dispatched before the
`depth == 0` guard and recurses with `depth - 1` even at depth 0 (first
conjunct), so the depth parameter does not bound recursion through
placeholders; on the cyclic store in which a variable's value is the
variable itself, the evaluation never returns — it exhausts every fuel
bound (second conjunct), i.e. the Python function does not terminate. -/
theorem c9_placeholder_case_unbounded :
    (∀ (σ : VStore) (calls : Nat → Val) (fuel i : Nat) (v : Val),
       σ i = .ok v →
       evalVars σ calls (fuel + 1) (.var i) 0 = evalVars σ calls fuel v (-1))
    ∧ (∀ (fuel : Nat) (depth : Int), evalVars selfStore noCalls fuel (.var 0) depth = .out) := by
  constructor
  · intro σ calls fuel i v hσ
    simp [evalVars, hσ]
  · intro fuel
    induction fuel with
    | zero => intro depth; rfl
    | succ f ih =>
      intro depth
      show evalVars selfStore noCalls f (.var 0) (depth - 1) = .out
      exact ih (depth - 1)

/-- C9 (witness): the dispatch conjunct instantiated at variable 0 of
`selfStore`, whose stored value is the variable itself. -/
theorem c9_placeholder_case_unbounded_witness :
    evalVars selfStore noCalls 3 (.var 0) 0 = evalVars selfStore noCalls 2 (.var 0) (-1) :=
  c9_placeholder_case_unbounded.1 selfStore noCalls 2 0 (.var 0) rfl

/-- C8: on any value containing no placeholders (and no callables), built
from the supported container shapes over plain leaves, `eval_vars` is the
identity, for every context store, every depth, and any sufficient fuel. -/
theorem c8_eval_vars_identity_on_plain_data (σ : VStore) (calls : Nat → Val) (v : Val)
    (h : PlainData v) :
    ∀ (depth : Int) (fuel : Nat), sizeOf v ≤ fuel → evalVars σ calls fuel v depth = .ok v := by
  induction h with
  | none =>
    intro depth fuel hf
    obtain ⟨f, rfl⟩ := fuel_succ_of_size_le _ _ hf
    simp only [evalVars]
    split <;> rfl
  | int n =>
    intro depth fuel hf
    obtain ⟨f, rfl⟩ := fuel_succ_of_size_le _ _ hf
    simp only [evalVars]
    split <;> rfl
  | str s =>
    intro depth fuel hf
    obtain ⟨f, rfl⟩ := fuel_succ_of_size_le _ _ hf
    simp only [evalVars]
    split <;> rfl
  | list xs h ih =>
    intro depth fuel hf
    obtain ⟨f, rfl⟩ := fuel_succ_of_size_le _ _ hf
    simp only [evalVars]
    split
    · rfl
    · rw [mapERes_id]
      · rfl
      · intro x hx
        apply ih x hx
        have h1 : sizeOf x < sizeOf xs := List.sizeOf_lt_of_mem hx
        have h2 : sizeOf (Val.list xs) = 1 + sizeOf xs := by simp
        omega
  | namedtuple t xs h ih =>
    intro depth fuel hf
    obtain ⟨f, rfl⟩ := fuel_succ_of_size_le _ _ hf
    simp only [evalVars]
    split
    · rfl
    · rw [mapERes_id]
      · rfl
      · intro x hx
        apply ih x hx
        have h1 : sizeOf x < sizeOf xs := List.sizeOf_lt_of_mem hx
        have h2 : sizeOf (Val.namedtuple t xs) = 1 + sizeOf t + sizeOf xs := by simp
        omega
  | tuple xs h ih =>
    intro depth fuel hf
    obtain ⟨f, rfl⟩ := fuel_succ_of_size_le _ _ hf
    simp only [evalVars]
    split
    · rfl
    · rw [mapERes_id]
      · rfl
      · intro x hx
        apply ih x hx
        have h1 : sizeOf x < sizeOf xs := List.sizeOf_lt_of_mem hx
        have h2 : sizeOf (Val.tuple xs) = 1 + sizeOf xs := by simp
        omega
  | dict kvs h ih =>
    intro depth fuel hf
    obtain ⟨f, rfl⟩ := fuel_succ_of_size_le _ _ hf
    simp only [evalVars]
    split
    · rfl
    · rw [mapEResKV_id]
      · rfl
      · intro kv hkv
        apply ih kv hkv
        have h1 : sizeOf kv < sizeOf kvs := List.sizeOf_lt_of_mem hkv
        have h2 : sizeOf (Val.dict kvs) = 1 + sizeOf kvs := by simp
        have h3 : sizeOf kv = 1 + sizeOf kv.1 + sizeOf kv.2 := by
          obtain ⟨a, b⟩ := kv
          simp
        omega
  | set xs h ih =>
    intro depth fuel hf
    obtain ⟨f, rfl⟩ := fuel_succ_of_size_le _ _ hf
    simp only [evalVars]
    split
    · rfl
    · rw [mapERes_id]
      · rfl
      · intro x hx
        apply ih x hx
        have h1 : sizeOf x < sizeOf xs := List.sizeOf_lt_of_mem hx
        have h2 : sizeOf (Val.set xs) = 1 + sizeOf xs := by simp
        omega
  | frozenset xs h ih =>
    intro depth fuel hf
    obtain ⟨f, rfl⟩ := fuel_succ_of_size_le _ _ hf
    simp only [evalVars]
    split
    · rfl
    · rw [mapERes_id]
      · rfl
      · intro x hx
        apply ih x hx
        have h1 : sizeOf x < sizeOf xs := List.sizeOf_lt_of_mem hx
        have h2 : sizeOf (Val.frozenset xs) = 1 + sizeOf xs := by simp
        omega

/-- C8 (witness): the identity theorem instantiated at the concrete
placeholder-free sample. -/
theorem c8_eval_vars_identity_on_plain_data_witness :
    evalVars store7 noCalls 50 plainSample 10 = .ok plainSample :=
  c8_eval_vars_identity_on_plain_data store7 noCalls plainSample plainSample_plain 10 50
    (by decide)

/-- C4: `pipeline(s1, ..., sn)(ctx)` threads the same context through each
step in order (first conjunct: appending a final step `f` to any prefix `ss`
runs `f` on the state reached by running `ss` in order, and the composed
result is `eval_vars` of `f`'s return value alone — every earlier return
value is discarded); with zero steps the call is legal and returns the
resolved form of `None` (second conjunct); the third conjunct observes the
order concretely on trace steps. -/
theorem c4_pipeline_runs_steps_in_order_resolves_last :
    (∀ (α : Type) (σ : VStore) (calls : Nat → Val) (fuel : Nat)
       (ss : List (α → α × Val)) (f : α → α × Val) (ctx : α),
       runPipeline σ calls fuel (ss ++ [f]) ctx =
         ((f (execSteps ss ctx)).1, evalVars σ calls fuel (f (execSteps ss ctx)).2 10))
    ∧ (∀ (α : Type) (σ : VStore) (calls : Nat → Val) (fuel : Nat) (ctx : α),
       runPipeline σ calls (fuel + 1) ([] : List (α → α × Val)) ctx = (ctx, .ok .none))
    ∧ runPipeline store7 noCalls 5 [traceStep 1, traceStep 2] [] = ([1, 2], .ok (.int 2)) := by
  refine ⟨?_, ?_, rfl⟩
  · intro α σ calls fuel ss f ctx
    simp only [runPipeline]
    rw [pipelineLoop_append_last]
  · intro α σ calls fuel ctx
    rfl

/-- C7: the step produced by `curry(f, *args)` never returns a raw
placeholder (first conjunct), and whenever the underlying function's return
value is an `AbstractVariable`, the step raises the leaked-placeholder
`TypeError` instead of returning it (second conjunct). -/
theorem c7_curry_rejects_leaked_placeholder (α : Type) (σ : VStore) (calls : Nat → Val)
    (fuel : Nat) (f : α → List Val → List (String × Val) → α × Val)
    (args : List Val) (kwargs : List (String × Val)) (ctx : α) :
    (∀ (c : α) (v : Val), curryStep σ calls fuel f args kwargs ctx = .ok (c, v) → ∀ i, v ≠ .var i)
    ∧ (∀ (xargs : List Val) (i : Nat),
       mapERes (fun a => evalVars σ calls fuel a 10) args = .ok xargs →
       (f ctx xargs kwargs).2 = .var i →
       curryStep σ calls fuel f args kwargs ctx = .exn .typeError) := by
  constructor
  · intro c v hok i hvar
    subst hvar
    unfold curryStep at hok
    cases hm : mapERes (fun a => evalVars σ calls fuel a 10) args with
    | ok xargs =>
      rw [hm] at hok
      simp only at hok
      cases hv : (f ctx xargs kwargs).2 with
      | var j => rw [hv] at hok; exact ERes.noConfusion hok
      | _ => rw [hv] at hok; simp_all
    | exn e => rw [hm] at hok; exact ERes.noConfusion hok
    | out => rw [hm] at hok; exact ERes.noConfusion hok
  · intro xargs i hm hv
    unfold curryStep
    rw [hm]
    simp only
    rw [hv]

/-- C7 (witness): the guard conjunct instantiated at a function that
returns variable 0 unresolved: the curried step raises `TypeError`. -/
theorem c7_curry_rejects_leaked_placeholder_witness :
    curryStep store7 noCalls 5 retVar0 [] [] () = .exn .typeError :=
  (c7_curry_rejects_leaked_placeholder Unit store7 noCalls 5 retVar0 [] [] ()).2 [] 0 rfl rfl

/-- C2: after `close()` (which clears the registry and sets `closed`), a
later `variable(name)` or `attribute(name)` call on the scope does NOT fail:
no method consults the `closed` flag, so each call silently allocates a
fresh placeholder, records it in the cleared registry, and returns it — the
claimed closed-scope error does not exist in the code. -/
theorem c2_closed_scope_silently_creates :
    closeCtx (CtxSt.mk [[]] [] [Scope.mk 0 [] false]) =
      (Option.none, CtxSt.mk [[]] [] [Scope.mk 0 [] true])
    ∧ variableFind [] [Scope.mk 0 [] true] "x" true =
        (some 0, [.variable "x" Option.none], [Scope.mk 0 [("x", 0)] true])
    ∧ attributeFind [] [Scope.mk 0 [] true] "y" true =
        (some 0, [.attribute "y" (some 0)], [Scope.mk 0 [("y", 0)] true]) :=
  ⟨rfl, rfl, rfl⟩

/-- C3: `Resource(name, resource)` never completes: for a closeable or a
context manager the constructor reaches `super().__init__(name, value)`,
which is `object.__init__` with two extra arguments and raises `TypeError`
(and anything else raises `ValueError`), so no Resource variable can ever
expose an acquired value or be released at scope close. -/
theorem c3_resource_constructor_always_raises :
    resourceInit .closeable = .error .typeError
    ∧ resourceInit .contextManager = .error .typeError
    ∧ resourceInit .other = .error .valueError
    ∧ ∀ k, resourceInit k ≠ .ok () := by
  refine ⟨rfl, rfl, rfl, ?_⟩
  intro k
  cases k <;> simp [resourceInit, objectInit]

/-- C5: on a total miss, `variable(name)` with a parent delegates with
creation enabled, so it allocates the variable in the parent scope's
registry and returns it whatever the original `create` flag (first
conjunct); `variables`/`attribute`/`attributes` consult the parent with
`create=False` and are read-only across a two-level chain, returning absent
on a create=False miss (second conjunct); but on a chain of three scopes
the parent's own delegation again enables creation, so even a create=False
`variables` lookup creates the variable in the root scope's registry
(third conjunct). -/
theorem c5_parent_lookup_creates_at_root :
    (∀ (heap : List VarObj) (s p : Scope) (name : String) (create : Bool),
       regFind s.reg name = Option.none → regFind p.reg name = Option.none →
       variableFind heap [s, p] name create =
         (some heap.length, heap ++ [.variable name Option.none],
          [s, Scope.mk p.target (p.reg ++ [(name, heap.length)]) p.closed]))
    ∧ (∀ (heap : List VarObj) (s p : Scope) (name : String),
       regFind s.reg name = Option.none → regFind p.reg name = Option.none →
       variablesFind heap [s, p] name false = (Option.none, heap, [s, p])
       ∧ attributeFind heap [s, p] name false = (Option.none, heap, [s, p])
       ∧ attributesFind heap [s, p] name false = (Option.none, heap, [s, p]))
    ∧ (∀ (heap : List VarObj) (s p g : Scope) (name : String),
       regFind s.reg name = Option.none → regFind p.reg name = Option.none →
       regFind g.reg name = Option.none →
       variablesFind heap [s, p, g] name false =
         (some heap.length, heap ++ [.variable name Option.none],
          [s, p, Scope.mk g.target (g.reg ++ [(name, heap.length)]) g.closed])) := by
  refine ⟨?_, ?_, ?_⟩
  · intro heap s p name create hs hp
    simp [variableFind, hs, hp]
  · intro heap s p name hs hp
    refine ⟨?_, ?_, ?_⟩
    · simp [variablesFind, variableFind, hs, hp]
    · simp [attributeFind, variableFind, hs, hp]
    · simp [attributesFind, variableFind, hs, hp]
  · intro heap s p g name hs hp hg
    simp [variablesFind, variableFind, hs, hp, hg]

/-- C5 (witness): the theorem instantiated on fresh two- and three-scope
chains: a create=False `variable('x')` creates in the parent registry and
returns the new variable; a create=False `variables('x')` is read-only on
two levels but creates at the root on three. -/
theorem c5_parent_lookup_creates_at_root_witness :
    variableFind [] [Scope.mk 0 [] false, Scope.mk 1 [] false] "x" false =
      (some 0, [.variable "x" Option.none],
       [Scope.mk 0 [] false, Scope.mk 1 [("x", 0)] false])
    ∧ variablesFind [] [Scope.mk 0 [] false, Scope.mk 1 [] false] "x" false =
      (Option.none, [], [Scope.mk 0 [] false, Scope.mk 1 [] false])
    ∧ variablesFind [] [Scope.mk 0 [] false, Scope.mk 1 [] false, Scope.mk 2 [] false] "x" false =
      (some 0, [.variable "x" Option.none],
       [Scope.mk 0 [] false, Scope.mk 1 [] false, Scope.mk 2 [("x", 0)] false]) :=
  ⟨c5_parent_lookup_creates_at_root.1 [] (Scope.mk 0 [] false) (Scope.mk 1 [] false) "x" false
     rfl rfl,
   (c5_parent_lookup_creates_at_root.2.1 [] (Scope.mk 0 [] false) (Scope.mk 1 [] false) "x"
     rfl rfl).1,
   c5_parent_lookup_creates_at_root.2.2 [] (Scope.mk 0 [] false) (Scope.mk 1 [] false)
     (Scope.mk 2 [] false) "x" rfl rfl rfl⟩

/-- C6: `attribute(name)` creates an `Attribute` whose target is the
scope's context target, whose value reads proxy to that target's entry
(conjuncts 1 and 3) — but `attributes(name)` creates a plain, targetless
`Variable` (conjunct 2), whose value read raises `AttributeError` instead
of proxying to the target (conjunct 4). -/
theorem c6_attributes_creates_plain_variable :
    (∀ (heap : List VarObj) (s : Scope) (name : String),
       regFind s.reg name = Option.none →
       attributeFind heap [s] name true =
         (some heap.length, heap ++ [.attribute name (some s.target)],
          [Scope.mk s.target (s.reg ++ [(name, heap.length)]) s.closed]))
    ∧ (∀ (heap : List VarObj) (s : Scope) (name : String),
       regFind s.reg name = Option.none →
       attributesFind heap [s] name true =
         (some heap.length, heap ++ [.variable name Option.none],
          [Scope.mk s.target (s.reg ++ [(name, heap.length)]) s.closed]))
    ∧ (∀ (dicts : List (List (String × Nat))) (t : Nat) (n : String) (v : Nat),
       regFind (dicts.getD t []) n = some v →
       varObjGet dicts (.attribute n (some t)) = .ok v)
    ∧ (∀ (dicts : List (List (String × Nat))) (n : String),
       varObjGet dicts (.variable n Option.none) = .error .attributeError) := by
  refine ⟨?_, ?_, ?_, ?_⟩
  · intro heap s name hs
    simp [attributeFind, hs]
  · intro heap s name hs
    simp [attributesFind, hs]
  · intro dicts t n v hv
    simp only [varObjGet]
    rw [hv]
  · intro dicts n
    rfl

/-- C6 (witness): the theorem instantiated on a fresh scope with target 3:
`attribute('x')` yields an Attribute bound to target 3, `attributes('y')`
yields a plain Variable; reading the Attribute proxies to the target's
entry, reading the fresh Variable raises. -/
theorem c6_attributes_creates_plain_variable_witness :
    attributeFind [] [Scope.mk 3 [] false] "x" true =
      (some 0, [.attribute "x" (some 3)], [Scope.mk 3 [("x", 0)] false])
    ∧ attributesFind [] [Scope.mk 3 [] false] "y" true =
      (some 0, [.variable "y" Option.none], [Scope.mk 3 [("y", 0)] false])
    ∧ varObjGet [[("x", 9)]] (.attribute "x" (some 0)) = .ok 9
    ∧ varObjGet [[("x", 9)]] (.variable "y" Option.none) = .error .attributeError :=
  ⟨c6_attributes_creates_plain_variable.1 [] (Scope.mk 3 [] false) "x" rfl,
   c6_attributes_creates_plain_variable.2.1 [] (Scope.mk 3 [] false) "y" rfl,
   c6_attributes_creates_plain_variable.2.2.1 [[("x", 9)]] 0 "x" 9 rfl,
   c6_attributes_creates_plain_variable.2.2.2 [[("x", 9)]] "y"⟩

/-- C10: if the head of the registry holds an `Attribute` whose mapping
target lacks the attribute's key, `close()` raises `KeyError` out of the
`hasattr(var, 'value')` test (only `AttributeError` is suppressed), and the
whole state is left as it was: registry uncleared, `closed` still false. -/
theorem c10_close_propagates_keyerror (dicts : List (List (String × Nat)))
    (heap : List VarObj) (t tgt vid : Nat) (an nm : String)
    (rest : List (String × Nat)) (anc : List Scope)
    (hvar : heap.getD vid (.variable "" Option.none) = .attribute an (some t))
    (hkey : regFind (dicts.getD t []) an = Option.none) :
    closeCtx (CtxSt.mk dicts heap (Scope.mk tgt ((nm, vid) :: rest) false :: anc)) =
      (some .keyError, CtxSt.mk dicts heap (Scope.mk tgt ((nm, vid) :: rest) false :: anc)) := by
  simp only [closeCtx, closeLoop]
  rw [hvar]
  simp only [hasattrValue, varObjGet]
  rw [hkey]

/-- C10 (witness): the theorem instantiated on a scope owning one Attribute
`'k'` over an empty mapping target. -/
theorem c10_close_propagates_keyerror_witness :
    closeCtx (CtxSt.mk [[]] [.attribute "k" (some 0)] [Scope.mk 0 [("k", 0)] false]) =
      (some .keyError, CtxSt.mk [[]] [.attribute "k" (some 0)] [Scope.mk 0 [("k", 0)] false]) :=
  c10_close_propagates_keyerror [[]] [.attribute "k" (some 0)] 0 0 0 "k" "k" [] [] rfl rfl
